import Mathlib

/-!
A shallow embedding of the request-to-process execution bridge of
`shaas.go`: path classification, the CGI environment builder, the
flush-writer stream adapter, and the basic-auth gate.  Go strings are
modelled as `List Char`, byte slices as `List Nat`, and Go's
`os.FileMode` as a `Nat` bit mask using the bit constants of the `os`
package.
-/

namespace Shaas

/-! ### File modes (Go `os.FileMode`) -/

/-- Bit constant `os.ModeDir`. -/
def ModeDir : Nat := 2 ^ 31

/-- Bit constant `os.ModeSymlink`. -/
def ModeSymlink : Nat := 2 ^ 27

/-- Bit constant `os.ModeDevice`. -/
def ModeDevice : Nat := 2 ^ 26

/-- Bit constant `os.ModeNamedPipe`. -/
def ModeNamedPipe : Nat := 2 ^ 25

/-- Bit constant `os.ModeSocket`. -/
def ModeSocket : Nat := 2 ^ 24

/-- Bit constant `os.ModeCharDevice`. -/
def ModeCharDevice : Nat := 2 ^ 21

/-- Bit constant `os.ModeIrregular`. -/
def ModeIrregular : Nat := 2 ^ 19

/-- Go `os.ModeType`: the mask of all file-type bits. -/
def ModeType : Nat :=
  ModeDir ||| ModeSymlink ||| ModeNamedPipe ||| ModeSocket ||| ModeDevice |||
    ModeCharDevice ||| ModeIrregular

/-- Go `FileMode.IsDir()`: `m & ModeDir != 0`. -/
def modeIsDir (m : Nat) : Bool := m &&& ModeDir != 0

/-- Go `FileMode.IsRegular()`: `m & ModeType == 0`. -/
def modeIsRegular (m : Nat) : Bool := m &&& ModeType == 0

/-! ### The `execCmd` dispatch -/

/-- Go `strings.LastIndex(s, sep)` for a one-character separator: the
index of the last occurrence of `c` in `s`, `-1` when absent. -/
def lastIndexOfChar (s : List Char) (c : Char) : Int :=
  match s with
  | [] => -1
  | x :: xs =>
    let r := lastIndexOfChar xs c
    if r ≥ 0 then r + 1 else if x = c then 0 else -1

/-- The working directory `execCmd` assigns for an executable file:
`path.Name()[0:strings.LastIndex(path.Name(), "/")]`.  (For a name with
no separator Go would panic on the slice; names reaching `execCmd` come
from `req.URL.Path` and always begin with `/`.) -/
def execFileDir (name : List Char) : List Char :=
  name.take (lastIndexOfChar name '/').toNat

/-- Result of `execCmd`'s dispatch: either a process is spawned with
the given argv0 and working directory (`cmd.Dir`), or the request is
rejected via `handleError` with an HTTP status and a message. -/
inductive ExecOutcome where
  | run (argv0 : List Char) (dir : List Char)
  | errorResp (status : Nat) (message : List Char)
deriving DecidableEq

/-- The 400 message of `execCmd`'s rejecting branch. -/
def invalidFileTypePostMsg : List Char :=
  "Invalid file type for POST. Only directories and regular executable file are supported".toList

/-- The `if`/`else if`/`else` dispatch at the head of `execCmd`:
`cwd` is the server's working directory (`os.Getwd()`), `name` the
opened path's name, `m` its mode, `interactive` the transport flag.
`p.Join(dir, "bin", "pseudo-interactive-bash")` is modelled as plain
concatenation, its arguments being already-clean paths. -/
def execCmdDispatch (cwd name : List Char) (m : Nat) (interactive : Bool) : ExecOutcome :=
  if modeIsDir m then
    if interactive then
      ExecOutcome.run (cwd ++ "/bin/pseudo-interactive-bash".toList) name
    else
      ExecOutcome.run "bash".toList name
  else if modeIsRegular m && m &&& 0o110 != 0 then
    ExecOutcome.run name (execFileDir name)
  else
    ExecOutcome.errorResp 400 invalidFileTypePostMsg

/-- The path classification realised by `execCmd`'s guard chain (the
Path Classifier of the spec). -/
inductive PathClass where
  | Directory
  | ExecutableFile
  | Other
deriving DecidableEq

/-- Classify a file mode with exactly the guards of `execCmd`. -/
def classifyMode (m : Nat) : PathClass :=
  if modeIsDir m then PathClass.Directory
  else if modeIsRegular m && m &&& 0o110 != 0 then PathClass.ExecutableFile
  else PathClass.Other

/-- The working directory (`cmd.Dir`) recorded in a dispatch outcome. -/
def outcomeDir : ExecOutcome → Option (List Char)
  | ExecOutcome.run _ d => some d
  | ExecOutcome.errorResp _ _ => none

/-! ### Bitwise helper lemmas -/

/-- If every bit of `b` lies inside `a` and `m` is disjoint from `a`,
then `m` is disjoint from `b`. -/
theorem land_eq_zero_mono {m a b : Nat} (hb : b &&& a = b) (h : m &&& a = 0) :
    m &&& b = 0 := by
  calc m &&& b = m &&& (b &&& a) := by rw [hb]
    _ = m &&& (a &&& b) := by rw [Nat.land_comm b a]
    _ = (m &&& a) &&& b := (Nat.land_assoc m a b).symm
    _ = 0 := by rw [h, Nat.zero_and]

/-- A regular mode has no directory bit. -/
theorem modeIsDir_eq_false_of_regular {m : Nat} (h : modeIsRegular m = true) :
    modeIsDir m = false := by
  have h0 : m &&& ModeType = 0 := by simpa [modeIsRegular] using h
  have hd : m &&& ModeDir = 0 := land_eq_zero_mono (by decide) h0
  simp [modeIsDir, hd]

/-- A mode whose execute bits are exactly the world bit has no
owner/group execute bit. -/
theorem land_0o110_eq_zero {m : Nat} (h : m &&& 0o111 = 0o001) :
    m &&& 0o110 = 0 := by
  have h1 : (0o111 &&& 0o110 : Nat) = 0o110 := by decide
  calc m &&& 0o110 = m &&& (0o111 &&& 0o110) := by rw [h1]
    _ = (m &&& 0o111) &&& 0o110 := (Nat.land_assoc m 0o111 0o110).symm
    _ = 0o001 &&& 0o110 := by rw [h]
    _ = 0 := by decide

/-- The directory bit of `m` seen through its type bits. -/
theorem land_dir_of_type {m v : Nat} (h : m &&& ModeType = v) :
    m &&& ModeDir = v &&& ModeDir := by
  have h1 : ModeType &&& ModeDir = ModeDir := by decide
  calc m &&& ModeDir = m &&& (ModeType &&& ModeDir) := by rw [h1]
    _ = (m &&& ModeType) &&& ModeDir := (Nat.land_assoc m ModeType ModeDir).symm
    _ = v &&& ModeDir := by rw [h]

/-! ### Claims C1–C3 -/

/-- Claim C1: for entries reaching the execution path, classification is
a pure function of file type and permission bits: a regular file is
`ExecutableFile` (and spawned) iff `(mode & 0110) != 0`, a directory is
always `Directory` regardless of its permission bits, and a regular
file with only the world-execute bit set is not `ExecutableFile`. -/
theorem execCmd_classification (m : Nat) (cwd name : List Char) (i : Bool) :
    (modeIsRegular m = true →
      ((classifyMode m = PathClass.ExecutableFile ↔ m &&& 0o110 ≠ 0) ∧
        (m &&& 0o110 ≠ 0 →
          execCmdDispatch cwd name m i = ExecOutcome.run name (execFileDir name)))) ∧
    (modeIsDir m = true → classifyMode m = PathClass.Directory) ∧
    (modeIsRegular m = true → m &&& 0o111 = 0o001 →
      classifyMode m = PathClass.Other) := by
  refine ⟨?_, ?_, ?_⟩
  · intro hr
    have hd := modeIsDir_eq_false_of_regular hr
    by_cases hx : m &&& 0o110 = 0
    · constructor
      · simp [classifyMode, hd, hr, hx]
      · intro hc; exact absurd hx hc
    · constructor
      · simp [classifyMode, hd, hr, hx]
      · intro _; simp [execCmdDispatch, hd, hr, hx]
  · intro hd
    simp [classifyMode, hd]
  · intro hr hw
    have hd := modeIsDir_eq_false_of_regular hr
    have hx := land_0o110_eq_zero hw
    simp [classifyMode, hd, hr, hx]

/-- Witness for C1 at concrete modes: `0o755` is an executable regular
file, a directory mode with permissions `0o755` is a directory, and a
regular file whose only execute bit is the world bit is not
executable. -/
theorem execCmd_classification_witness :
    classifyMode 0o755 = PathClass.ExecutableFile ∧
    classifyMode (2 ^ 31 + 0o777) = PathClass.Directory ∧
    classifyMode 0o601 = PathClass.Other := by
  refine ⟨?_, ?_, ?_⟩
  · exact ((execCmd_classification 0o755 [] [] false).1 (by decide)).1.mpr (by decide)
  · exact (execCmd_classification (2 ^ 31 + 0o777) [] [] false).2.1 (by decide)
  · exact (execCmd_classification 0o601 [] [] false).2.2 (by decide) (by decide)

/-- The filesystem entry a request path resolves to: either an entry
opened directly, or a symbolic link to an entry of a given mode. -/
inductive FsEntry where
  | direct (mode : Nat)
  | symlink (targetMode : Nat)

/-- The mode observed by `handleAny`'s `os.Open(req.URL.Path)` followed
by `path.Stat()`: opening follows symbolic links, and `Stat` is an
fstat of the opened descriptor, so for a symlink the observed mode is
the TARGET's mode — `ModeSymlink` never reaches `execCmd`. -/
def openStatMode : FsEntry → Nat
  | FsEntry.direct m => m
  | FsEntry.symlink mt => mt

/-- Claim C2 fails on the code: opening follows symbolic links, so a
POST to a symlink whose target is an owner-executable regular file
spawns the target (classification `ExecutableFile`, not `Other`), and
a symlink whose target is a directory classifies `Directory` — neither
yields the invalid-file-type 400 rejection. -/
theorem classify_symlink_counterexample :
    classifyMode (openStatMode (FsEntry.symlink 0o755)) = PathClass.ExecutableFile ∧
    execCmdDispatch [] "/foo".toList (openStatMode (FsEntry.symlink 0o755)) false =
      ExecOutcome.run "/foo".toList [] ∧
    execCmdDispatch [] "/foo".toList (openStatMode (FsEntry.symlink 0o755)) false ≠
      ExecOutcome.errorResp 400 invalidFileTypePostMsg ∧
    classifyMode (openStatMode (FsEntry.symlink (ModeDir + 0o755))) =
      PathClass.Directory := by
  decide

/-- Claim C2 (amended): the classifier sees a symbolic link's TARGET
mode, because `os.Open` dereferences links and `File.Stat` is an fstat
of the opened descriptor: a symlink to a directory classifies
`Directory`, and a symlink to an owner/group-executable regular file
is spawned.  A mode whose type bits mark a device (block or
character), socket or FIFO — when such an entry reaches the dispatch —
classifies `Other` and a POST on it is rejected with the
invalid-file-type 400 error. -/
theorem classify_symlink_target (mt m : Nat) (cwd name : List Char) (i : Bool) :
    classifyMode (openStatMode (FsEntry.symlink mt)) = classifyMode mt ∧
    (modeIsDir mt = true →
      classifyMode (openStatMode (FsEntry.symlink mt)) = PathClass.Directory) ∧
    (modeIsRegular mt = true → mt &&& 0o110 ≠ 0 →
      execCmdDispatch cwd name (openStatMode (FsEntry.symlink mt)) i =
        ExecOutcome.run name (execFileDir name)) ∧
    (m &&& ModeType = ModeDevice ∨ m &&& ModeType = (ModeDevice ||| ModeCharDevice) ∨
      m &&& ModeType = ModeSocket ∨ m &&& ModeType = ModeNamedPipe →
      classifyMode m = PathClass.Other ∧
        execCmdDispatch cwd name m i =
          ExecOutcome.errorResp 400 invalidFileTypePostMsg) := by
  refine ⟨rfl, ?_, ?_, ?_⟩
  · intro hd
    simp [openStatMode, classifyMode, hd]
  · intro hr hx
    have hd := modeIsDir_eq_false_of_regular hr
    simp [openStatMode, execCmdDispatch, hd, hr, hx]
  · intro h
    rcases h with h | h | h | h <;>
      { have hd : m &&& ModeDir = 0 := by rw [land_dir_of_type h]; decide
        have ht : m &&& ModeType ≠ 0 := by rw [h]; decide
        constructor
        · simp [classifyMode, modeIsDir, modeIsRegular, hd, ht]
        · simp [execCmdDispatch, modeIsDir, modeIsRegular, hd, ht] }

/-- Witness for C2 (amended) at concrete entries: a symlink to a
directory is classified `Directory`, a symlink to an executable file
is spawned, and a FIFO mode classifies `Other`. -/
theorem classify_symlink_target_witness :
    classifyMode (openStatMode (FsEntry.symlink (ModeDir + 0o755))) =
      PathClass.Directory ∧
    execCmdDispatch [] "/foo".toList (openStatMode (FsEntry.symlink 0o755)) false =
      ExecOutcome.run "/foo".toList [] ∧
    classifyMode ModeNamedPipe = PathClass.Other := by
  refine ⟨?_, ?_, ?_⟩
  · exact (classify_symlink_target (ModeDir + 0o755) 0 [] [] false).2.1 (by decide)
  · have h := (classify_symlink_target 0o755 0 [] "/foo".toList false).2.2.1
      (by decide) (by decide)
    have he : execFileDir "/foo".toList = ([] : List Char) := by decide
    rw [he] at h
    exact h
  · exact ((classify_symlink_target 0 ModeNamedPipe [] [] false).2.2.2
      (Or.inr (Or.inr (Or.inr (by decide))))).1

/-- Claim C3 fails on the code for an executable directly under the
filesystem root: `/foo` with mode `0o755` is dispatched with working
directory `""` (the truncation at the last separator), not its parent
directory `/`. -/
theorem execCmd_rootExec_dir_counterexample :
    classifyMode 0o755 = PathClass.ExecutableFile ∧
    execCmdDispatch [] "/foo".toList 0o755 false =
      ExecOutcome.run "/foo".toList [] ∧
    ([] : List Char) ≠ "/".toList := by decide

/-- A character absent from a list is never found. -/
theorem lastIndexOfChar_eq_neg_one {s : List Char} {c : Char} (h : c ∉ s) :
    lastIndexOfChar s c = -1 := by
  induction s with
  | nil => rfl
  | cons x xs ih =>
    have hx : ¬x = c := fun e => h (e ▸ List.mem_cons_self x xs)
    have hxs : c ∉ xs := fun m => h (List.mem_cons_of_mem x m)
    simp [lastIndexOfChar, ih hxs, hx]

/-- The last occurrence of `c` in `a ++ c :: b` with `c ∉ b` sits at
index `a.length`. -/
theorem lastIndexOfChar_append (a b : List Char) (c : Char) (h : c ∉ b) :
    lastIndexOfChar (a ++ c :: b) c = (a.length : Int) := by
  induction a with
  | nil => simp [lastIndexOfChar, lastIndexOfChar_eq_neg_one h]
  | cons x xs ih =>
    have hge : (xs.length : Int) ≥ 0 := Int.natCast_nonneg _
    simp only [List.cons_append, lastIndexOfChar, List.append_eq, ih]
    rw [if_pos hge]
    simp only [List.length_cons]
    omega

/-- Truncating at the last separator yields the leading segment. -/
theorem execFileDir_parent (a b : List Char) (h : '/' ∉ b) :
    execFileDir (a ++ '/' :: b) = a := by
  unfold execFileDir
  rw [lastIndexOfChar_append a b '/' h]
  rw [Int.toNat_natCast]
  exact List.take_left a ('/' :: b)

/-- Claim C3 (amended): the spawned child's working directory is the
directory path itself for a `Directory`, and for an `ExecutableFile`
the name truncated at its last path separator — which is the parent
directory `a` when the name is `a ++ "/" ++ b` with `b`
separator-free, and hence the empty string (not `/`) for an executable
directly under the root. -/
theorem execCmd_workingDir (cwd name : List Char) (m : Nat) (i : Bool)
    (a b : List Char) :
    (classifyMode m = PathClass.Directory →
      outcomeDir (execCmdDispatch cwd name m i) = some name) ∧
    (classifyMode m = PathClass.ExecutableFile →
      outcomeDir (execCmdDispatch cwd name m i) = some (execFileDir name)) ∧
    ('/' ∉ b → name = a ++ '/' :: b → execFileDir name = a) := by
  refine ⟨?_, ?_, ?_⟩
  · intro h
    by_cases hd : modeIsDir m = true
    · cases i <;> simp [execCmdDispatch, hd, outcomeDir]
    · exfalso
      by_cases hx : (modeIsRegular m && m &&& 0o110 != 0) = true <;>
        simp [classifyMode, hd, hx] at h
  · intro h
    by_cases hd : modeIsDir m = true
    · exfalso; simp [classifyMode, hd] at h
    · by_cases hx : (modeIsRegular m && m &&& 0o110 != 0) = true
      · simp [execCmdDispatch, hd, hx, outcomeDir]
      · exfalso; simp [classifyMode, hd, hx] at h
  · intro hb hn
    rw [hn]
    exact execFileDir_parent a b hb

/-- Witness for C3 (amended) at concrete inputs: a directory runs in
itself, and `/a/b` runs in its parent `/a`. -/
theorem execCmd_workingDir_witness :
    outcomeDir (execCmdDispatch [] "/w".toList (2 ^ 31) false) = some "/w".toList ∧
    outcomeDir (execCmdDispatch [] "/a/b".toList 0o755 false) = some "/a".toList := by
  constructor
  · exact (execCmd_workingDir [] "/w".toList (2 ^ 31) false [] []).1 (by decide)
  · have h := (execCmd_workingDir [] "/a/b".toList 0o755 false "/a".toList ['b']).2
    have h2 := h.1 (by decide)
    have h3 := h.2 (by decide) (by decide)
    rw [h3] at h2
    exact h2

/-! ### The CGI environment builder -/

/-- Go `upperCaseAndUnderscore` from `shaas.go`: uppercase `a`–`z`,
replace `-` and `=` by `_`, keep every other rune. -/
def upperCaseAndUnderscore (r : Char) : Char :=
  if 'a' ≤ r ∧ r ≤ 'z' then Char.ofNat (r.toNat - ('a'.toNat - 'A'.toNat))
  else if r = '-' then '_'
  else if r = '=' then '_'
  else r

/-- `strings.Map(upperCaseAndUnderscore, k)`; the mapping never drops a
rune (it never returns a negative), so `strings.Map` is `List.map`. -/
def foldHeaderKey (k : List Char) : List Char := k.map upperCaseAndUnderscore

/-- One `HTTP_*` entry of the header loop in `cgiEnv`:
`"HTTP_" + k + "=" + strings.Join(v, joinStr)` with `joinStr` chosen by
comparing the folded key against `COOKIE`. -/
def headerEnvEntry (k : List Char) (vs : List (List Char)) : List Char :=
  "HTTP_".toList ++ (foldHeaderKey k ++ ('=' ::
    List.intercalate
      (if foldHeaderKey k = "COOKIE".toList then "; ".toList else ", ".toList) vs))

/-- The fields of Go's `*http.Request` that `shaas.go` reads. -/
structure Request where
  host : List Char
  method : List Char
  rawQuery : List Char
  requestURI : List Char
  urlPath : List Char
  remoteAddr : List Char
  tls : Bool
  headers : List (List Char × List (List Char))
  contentLength : Int
  basicAuth : Option (List Char × List Char)

/-- Go `req.Header.Get(k)`: the first value stored under `k`, or the
empty string.  Header keys are stored in canonical form. -/
def headerGet (h : List (List Char × List (List Char))) (k : List Char) : List Char :=
  match h.find? (fun e => e.1 == k) with
  | some (_, v :: _) => v
  | _ => []

/-- Go `httpPort()`: the `PORT` environment variable when nonempty,
else `5000`. -/
def httpPort (portEnv : List Char) : List Char :=
  if portEnv ≠ [] then portEnv else "5000".toList

/-- The fourteen unconditional entries at the head of `cgiEnv`. -/
def fixedEnv (port : List Char) (req : Request) : List (List Char) :=
  ["SERVER_SOFTWARE=go".toList,
   "SERVER_NAME=".toList ++ req.host,
   "SERVER_PROTOCOL=HTTP/1.1".toList,
   "HTTP_HOST=".toList ++ req.host,
   "GATEWAY_INTERFACE=CGI/1.1".toList,
   "REQUEST_METHOD=".toList ++ req.method,
   "QUERY_STRING=".toList ++ req.rawQuery,
   "REQUEST_URI=".toList ++ req.requestURI,
   "PATH_INFO=".toList ++ req.urlPath,
   "SCRIPT_NAME=".toList ++ req.urlPath,
   "SCRIPT_FILENAME=".toList ++ req.urlPath,
   "REMOTE_ADDR=".toList ++ req.remoteAddr,
   "REMOTE_HOST=".toList ++ req.remoteAddr,
   "SERVER_PORT=".toList ++ port]

/-- Go `cgiEnv(req)` with the server port passed explicitly (the source
reads it through `httpPort()`).  The four appends mirror the source's
sequence: the fixed entries, then `HTTPS`, then the header loop, then
`CONTENT_LENGTH`, then `CONTENT_TYPE`. -/
def cgiEnv (port : List Char) (req : Request) : List (List Char) :=
  fixedEnv port req ++
    ((if req.tls then ["HTTPS=on".toList] else []) ++
      (req.headers.map (fun e => headerEnvEntry e.1 e.2) ++
        ((if 0 < req.contentLength then
            ["CONTENT_LENGTH=".toList ++ (toString req.contentLength).toList]
          else []) ++
          (if headerGet req.headers "Content-Type".toList ≠ [] then
            ["CONTENT_TYPE=".toList ++ headerGet req.headers "Content-Type".toList]
          else []))))

/-- An environment holds key `k` when some entry begins with `k=`. -/
def HasEnvKey (env : List (List Char)) (k : List Char) : Prop :=
  ∃ e ∈ env, k ++ ['='] <+: e

instance (env : List (List Char)) (k : List Char) : Decidable (HasEnvKey env k) := by
  unfold HasEnvKey
  infer_instance

/-- When `p` and `a` are prefix-incomparable, `p` is not a prefix of
`a ++ b` either. -/
theorem not_prefix_append_of {p a : List Char} (b : List Char)
    (h1 : ¬p <+: a) (h2 : ¬a <+: p) : ¬p <+: a ++ b := by
  intro hp
  rcases List.prefix_or_prefix_of_prefix hp ( List.prefix_append a b) with h | h
  · exact h1 h
  · exact h2 h

/-- Neither `CONTENT_LENGTH=` nor `HTTPS=` starts any of the fourteen
fixed entries. -/
theorem fixedEnv_no_key (port : List Char) (req : Request) {p : List Char}
    (hp : p = "CONTENT_LENGTH=".toList ∨ p = "HTTPS=".toList) :
    ∀ e ∈ fixedEnv port req, ¬p <+: e := by
  intro e he
  simp only [fixedEnv, List.mem_cons, List.not_mem_nil, or_false] at he
  rcases hp with hp | hp <;> subst hp <;>
    (rcases he with h|h|h|h|h|h|h|h|h|h|h|h|h|h <;> subst h) <;>
    first
      | decide
      | exact not_prefix_append_of _ (by decide) (by decide)

/-- Neither `CONTENT_LENGTH=` nor `HTTPS=` starts a header entry, all
of which begin with `HTTP_`. -/
theorem headerEntry_no_key {p : List Char}
    (hp : p = "CONTENT_LENGTH=".toList ∨ p = "HTTPS=".toList)
    (k : List Char) (vs : List (List Char)) :
    ¬p <+: headerEnvEntry k vs := by
  unfold headerEnvEntry
  rcases hp with hp | hp <;> subst hp <;>
    exact not_prefix_append_of _ (by decide) (by decide)

/-- Claim C4: the built environment has a `CONTENT_LENGTH` entry iff the
declared content length is strictly positive, and an `HTTPS` entry
(namely `HTTPS=on`) iff the connection used TLS. -/
theorem cgiEnv_contentLength_https (port : List Char) (req : Request) :
    (HasEnvKey (cgiEnv port req) "CONTENT_LENGTH".toList ↔ 0 < req.contentLength) ∧
    (HasEnvKey (cgiEnv port req) "HTTPS".toList ↔ req.tls = true) ∧
    (req.tls = true → "HTTPS=on".toList ∈ cgiEnv port req) := by
  have hsplit : ∀ e, e ∈ cgiEnv port req ↔
      e ∈ fixedEnv port req ∨
      (e ∈ (if req.tls then ["HTTPS=on".toList] else ([] : List (List Char))) ∨
        (e ∈ req.headers.map (fun x => headerEnvEntry x.1 x.2) ∨
          (e ∈ (if 0 < req.contentLength then
              ["CONTENT_LENGTH=".toList ++ (toString req.contentLength).toList]
            else ([] : List (List Char))) ∨
            e ∈ (if headerGet req.headers "Content-Type".toList ≠ [] then
              ["CONTENT_TYPE=".toList ++ headerGet req.headers "Content-Type".toList]
            else ([] : List (List Char)))))) := by
    intro e
    simp only [cgiEnv, List.mem_append]
  refine ⟨⟨?_, ?_⟩, ⟨?_, ?_⟩, ?_⟩
  · rintro ⟨e, he, hpre⟩
    rcases (hsplit e).mp he with h | h | h | h | h
    · exact absurd hpre (fixedEnv_no_key port req (Or.inl rfl) e h)
    · cases htls : req.tls <;> rw [htls] at h <;> simp at h
      subst h
      exact absurd hpre (by decide)
    · rcases List.mem_map.mp h with ⟨x, _, rfl⟩
      exact absurd hpre (headerEntry_no_key (Or.inl rfl) x.1 x.2)
    · by_cases hcl : 0 < req.contentLength
      · exact hcl
      · rw [if_neg hcl] at h
        simp at h
    · by_cases hct : headerGet req.headers "Content-Type".toList ≠ []
      · rw [if_pos hct] at h
        simp at h
        subst h
        exact absurd hpre
          (@not_prefix_append_of ("CONTENT_LENGTH".toList ++ ['='])
            "CONTENT_TYPE=".toList _ (by decide) (by decide))
      · rw [if_neg hct] at h
        simp at h
  · intro hcl
    refine ⟨"CONTENT_LENGTH=".toList ++ (toString req.contentLength).toList,
      (hsplit _).mpr (Or.inr (Or.inr (Or.inr (Or.inl ?_)))), ?_⟩
    · rw [if_pos hcl]
      exact List.mem_singleton.mpr rfl
    · have h : "CONTENT_LENGTH".toList ++ ['='] = "CONTENT_LENGTH=".toList := by decide
      rw [h]
      exact List.prefix_append _ _
  · rintro ⟨e, he, hpre⟩
    rcases (hsplit e).mp he with h | h | h | h | h
    · exact absurd hpre (fixedEnv_no_key port req (Or.inr rfl) e h)
    · cases htls : req.tls
      · rw [htls] at h
        simp at h
      · rfl
    · rcases List.mem_map.mp h with ⟨x, _, rfl⟩
      exact absurd hpre (headerEntry_no_key (Or.inr rfl) x.1 x.2)
    · by_cases hcl : 0 < req.contentLength
      · rw [if_pos hcl] at h
        simp at h
        subst h
        exact absurd hpre
          (@not_prefix_append_of ("HTTPS".toList ++ ['='])
            "CONTENT_LENGTH=".toList _ (by decide) (by decide))
      · rw [if_neg hcl] at h
        simp at h
    · by_cases hct : headerGet req.headers "Content-Type".toList ≠ []
      · rw [if_pos hct] at h
        simp at h
        subst h
        exact absurd hpre
          (@not_prefix_append_of ("HTTPS".toList ++ ['='])
            "CONTENT_TYPE=".toList _ (by decide) (by decide))
      · rw [if_neg hct] at h
        simp at h
  · intro htls
    refine ⟨"HTTPS=on".toList,
      (hsplit _).mpr (Or.inr (Or.inl ?_)), by decide⟩
    rw [htls]
    exact List.mem_singleton.mpr rfl
  · intro htls
    refine (hsplit _).mpr (Or.inr (Or.inl ?_))
    rw [htls]
    exact List.mem_singleton.mpr rfl

/-- A concrete request exercising the conditional entries of `cgiEnv`:
TLS on, positive declared content length. -/
def reqTLSandBody : Request :=
  { host := "h".toList, method := "POST".toList, rawQuery := [],
    requestURI := "/x".toList, urlPath := "/x".toList,
    remoteAddr := "10.0.0.1:99".toList, tls := true, headers := [],
    contentLength := 3, basicAuth := none }

/-- Witness for C4 at a concrete request. -/
theorem cgiEnv_contentLength_https_witness :
    HasEnvKey (cgiEnv "5000".toList reqTLSandBody) "CONTENT_LENGTH".toList ∧
    "HTTPS=on".toList ∈ cgiEnv "5000".toList reqTLSandBody := by
  constructor
  · exact (cgiEnv_contentLength_https "5000".toList reqTLSandBody).1.mpr (by decide)
  · exact (cgiEnv_contentLength_https "5000".toList reqTLSandBody).2.2 (by decide)

/-! ### Character-level facts about the key folding -/

/-- Code point of `Char.ofNat` below the surrogate range. -/
theorem toNat_charOfNat_of_lt {m : Nat} (h : m < 55296) :
    (Char.ofNat m).toNat = m := by
  rw [Char.ofNat, dif_pos (Or.inl h)]
  simp [Char.ofNatAux, UInt32.ofNat', Char.toNat, UInt32.toNat, BitVec.toNat_ofNatLt]

/-- Character order is code-point order. -/
theorem char_le_iff_toNat {a b : Char} : a ≤ b ↔ a.toNat ≤ b.toNat := by
  simp only [Char.le_def, UInt32.le_def, BitVec.le_def]
  exact Iff.rfl

/-- Plain ASCII uppercasing, used to state case-insensitive matching. -/
def asciiUpper (c : Char) : Char :=
  if 'a' ≤ c ∧ c ≤ 'z' then Char.ofNat (c.toNat - ('a'.toNat - 'A'.toNat)) else c

/-- Case-insensitive ASCII equality of strings. -/
def caseInsensitiveEq (a b : List Char) : Prop :=
  a.map asciiUpper = b.map asciiUpper

instance (a b : List Char) : Decidable (caseInsensitiveEq a b) := by
  unfold caseInsensitiveEq
  infer_instance

/-- Against an uppercase-letter target, the source's folding agrees
with plain ASCII uppercasing. -/
theorem fold_eq_upper_on_letters {c u : Char} (h1 : 'A' ≤ u) (h2 : u ≤ 'Z') :
    (upperCaseAndUnderscore c = u ↔ asciiUpper c = u) := by
  by_cases hl : 'a' ≤ c ∧ c ≤ 'z'
  · simp [upperCaseAndUnderscore, asciiUpper, hl]
  · by_cases hm : c = '-'
    · subst hm
      have e1 : upperCaseAndUnderscore '-' = '_' := by decide
      have e2 : asciiUpper '-' = '-' := by decide
      rw [e1, e2]
      constructor
      · rintro rfl
        exact absurd h2 (by decide)
      · rintro rfl
        exact absurd h1 (by decide)
    · by_cases he : c = '='
      · subst he
        have e1 : upperCaseAndUnderscore '=' = '_' := by decide
        have e2 : asciiUpper '=' = '=' := by decide
        rw [e1, e2]
        constructor
        · rintro rfl
          exact absurd h2 (by decide)
        · rintro rfl
          exact absurd h1 (by decide)
      · simp [upperCaseAndUnderscore, asciiUpper, hl, hm, he]

/-- Folding and plain uppercasing agree against an uppercase-letter
target string. -/
theorem map_fold_eq_of_upper : ∀ (k t : List Char),
    (∀ u ∈ t, 'A' ≤ u ∧ u ≤ 'Z') →
    (k.map upperCaseAndUnderscore = t ↔ k.map asciiUpper = t)
  | [], _, _ => Iff.rfl
  | c :: k, [], _ => by simp
  | c :: k, u :: t, hup => by
    have h1 := hup u (List.mem_cons_self u t)
    have ih := map_fold_eq_of_upper k t (fun v hv => hup v (List.mem_cons_of_mem u hv))
    simp only [List.map_cons, List.cons.injEq]
    rw [fold_eq_upper_on_letters h1.1 h1.2]
    exact and_congr Iff.rfl ih

/-- The folded key equals `COOKIE` exactly when the header name matches
`Cookie` case-insensitively. -/
theorem foldHeaderKey_eq_cookie_iff (k : List Char) :
    foldHeaderKey k = "COOKIE".toList ↔ caseInsensitiveEq k "Cookie".toList := by
  have h1 : ("Cookie".toList).map asciiUpper = "COOKIE".toList := by decide
  unfold caseInsensitiveEq foldHeaderKey
  rw [h1]
  exact map_fold_eq_of_upper k "COOKIE".toList (by decide)

/-- Claim C5: a header entry joins multiple values with a comma-space
separator, except a header matching `Cookie` case-insensitively, whose
values join with a semicolon-space separator; the entry lands in the
built environment. -/
theorem headerEnvEntry_join (k : List Char) (vs : List (List Char)) :
    headerEnvEntry k vs =
      "HTTP_".toList ++ (foldHeaderKey k ++ ('=' ::
        List.intercalate
          (if caseInsensitiveEq k "Cookie".toList then "; ".toList else ", ".toList)
          vs)) ∧
    (foldHeaderKey k = "COOKIE".toList ↔ caseInsensitiveEq k "Cookie".toList) ∧
    (∀ (port : List Char) (req : Request), (k, vs) ∈ req.headers →
      headerEnvEntry k vs ∈ cgiEnv port req) := by
  refine ⟨?_, foldHeaderKey_eq_cookie_iff k, ?_⟩
  · unfold headerEnvEntry
    rw [if_congr (foldHeaderKey_eq_cookie_iff k) rfl rfl]
  · intro port req hmem
    simp only [cgiEnv, List.mem_append]
    exact Or.inr (Or.inr (Or.inl (List.mem_map.mpr ⟨(k, vs), hmem, rfl⟩)))

/-- A request with a multi-valued `Cookie` header. -/
def reqCookie : Request :=
  { host := [], method := "POST".toList, rawQuery := [],
    requestURI := "/".toList, urlPath := "/".toList, remoteAddr := [],
    tls := false,
    headers := [("Cookie".toList, ["a=1".toList, "b=2".toList]),
                ("Accept".toList, ["x".toList, "y".toList])],
    contentLength := 0, basicAuth := none }

/-- Witness for C5 at a concrete request: the cookie values join with
a semicolon-space and the entry is in the environment. -/
theorem headerEnvEntry_join_witness :
    headerEnvEntry "Cookie".toList ["a=1".toList, "b=2".toList] =
      "HTTP_COOKIE=a=1; b=2".toList ∧
    headerEnvEntry "Cookie".toList ["a=1".toList, "b=2".toList] ∈
      cgiEnv "5000".toList reqCookie := by
  constructor
  · rw [(headerEnvEntry_join "Cookie".toList ["a=1".toList, "b=2".toList]).1]
    decide
  · exact (headerEnvEntry_join "Cookie".toList ["a=1".toList, "b=2".toList]).2.2
      "5000".toList reqCookie (by decide)

/-- Claim C6 fails on the code: folding leaves `.` unchanged, so the
header name `x.y` yields environment key `HTTP_X.Y`, not the claimed
`HTTP_X_Y`. -/
theorem foldHeaderKey_dot_counterexample :
    foldHeaderKey "x.y".toList = "X.Y".toList ∧
    foldHeaderKey "x.y".toList ≠ "X_Y".toList ∧
    headerEnvEntry "x.y".toList ["v".toList] = "HTTP_X.Y=v".toList := by decide

/-- Modelled from the amended claim's words: uppercase lowercase ASCII
letters and replace exactly `-` and `=` by `_`, leaving every other
character (for example `.`) unchanged. -/
def specFoldChar (c : Char) : Char :=
  if 'a' ≤ c ∧ c ≤ 'z' then asciiUpper c
  else if c = '-' ∨ c = '=' then '_'
  else c

/-- The source's per-rune folding equals the amended description. -/
theorem fold_char_spec (c : Char) : upperCaseAndUnderscore c = specFoldChar c := by
  by_cases hl : 'a' ≤ c ∧ c ≤ 'z'
  · simp [upperCaseAndUnderscore, specFoldChar, asciiUpper, hl]
  · by_cases hm : c = '-'
    · subst hm
      decide
    · by_cases he : c = '='
      · subst he
        decide
      · simp [upperCaseAndUnderscore, specFoldChar, hl, hm, he]

/-- No folded character is a lowercase ASCII letter. -/
theorem fold_char_not_lower (c : Char) :
    ¬('a' ≤ upperCaseAndUnderscore c ∧ upperCaseAndUnderscore c ≤ 'z') := by
  have ha : 'a'.toNat - 'A'.toNat = 32 := by decide
  have hga : 'a'.toNat = 97 := by decide
  have hgz : 'z'.toNat = 122 := by decide
  by_cases hl : 'a' ≤ c ∧ c ≤ 'z'
  · have hc2 : c.toNat ≤ 122 := by
      rw [← hgz]
      exact char_le_iff_toNat.mp hl.2
    have ht : (Char.ofNat (c.toNat - ('a'.toNat - 'A'.toNat))).toNat
        = c.toNat - ('a'.toNat - 'A'.toNat) := by
      apply toNat_charOfNat_of_lt
      rw [ha]
      omega
    unfold upperCaseAndUnderscore
    rw [if_pos hl]
    intro hcon
    have h1 := char_le_iff_toNat.mp hcon.1
    rw [ht, ha, hga] at h1
    omega
  · by_cases hm : c = '-'
    · subst hm
      decide
    · by_cases he : c = '='
      · subst he
        decide
      · unfold upperCaseAndUnderscore
        rw [if_neg hl, if_neg hm, if_neg he]
        exact hl

/-- Claim C6 (amended): the environment key is produced by uppercasing
lowercase ASCII letters and replacing exactly `-` and `=` by `_`; all
other characters pass through unchanged, and no lowercase ASCII letter
survives in a folded key. -/
theorem foldHeaderKey_amended (k : List Char) :
    foldHeaderKey k = k.map specFoldChar ∧
    ∀ c ∈ foldHeaderKey k, ¬('a' ≤ c ∧ c ≤ 'z') := by
  constructor
  · unfold foldHeaderKey
    exact List.map_congr_left (fun x _ => fold_char_spec x)
  · intro c hc
    rcases List.mem_map.mp hc with ⟨x, _, rfl⟩
    exact fold_char_not_lower x

/-- A request carrying a header whose value contains `=`. -/
def reqEqValue : Request :=
  { host := [], method := "POST".toList, rawQuery := [],
    requestURI := "/".toList, urlPath := "/".toList, remoteAddr := [],
    tls := false, headers := [("X".toList, ["a=b".toList])],
    contentLength := 0, basicAuth := none }

/-- Claim C7 fails on the code: the `=` inside the header value `a=b`
is not folded; the built environment contains `HTTP_X=a=b` — an entry
with an `=` beyond the first separator — and does not contain the
claimed `HTTP_X=a_b`. -/
theorem headerValue_eq_counterexample :
    "HTTP_X=a=b".toList ∈ cgiEnv "5000".toList reqEqValue ∧
    "HTTP_X=a=b".toList.count '=' = 2 ∧
    "HTTP_X=a_b".toList ∉ cgiEnv "5000".toList reqEqValue := by decide

/-- No folded character is `=`. -/
theorem fold_char_ne_eq (c : Char) : upperCaseAndUnderscore c ≠ '=' := by
  have ha : 'a'.toNat - 'A'.toNat = 32 := by decide
  have hgz : 'z'.toNat = 122 := by decide
  have hq : ('=').toNat = 61 := by decide
  have hga : 'a'.toNat = 97 := by decide
  by_cases hl : 'a' ≤ c ∧ c ≤ 'z'
  · have hc1 : 97 ≤ c.toNat := by
      rw [← hga]
      exact char_le_iff_toNat.mp hl.1
    have hc2 : c.toNat ≤ 122 := by
      rw [← hgz]
      exact char_le_iff_toNat.mp hl.2
    have ht : (Char.ofNat (c.toNat - ('a'.toNat - 'A'.toNat))).toNat
        = c.toNat - ('a'.toNat - 'A'.toNat) := by
      apply toNat_charOfNat_of_lt
      rw [ha]
      omega
    unfold upperCaseAndUnderscore
    rw [if_pos hl]
    intro hcon
    have h1 := congrArg Char.toNat hcon
    rw [ht, hq, ha] at h1
    omega
  · by_cases hm : c = '-'
    · subst hm
      decide
    · by_cases he : c = '='
      · subst he
        decide
      · unfold upperCaseAndUnderscore
        rw [if_neg hl, if_neg hm, if_neg he]
        exact he

/-- `strings.Join` of a single value is that value. -/
theorem intercalate_singleton (sep v : List Char) :
    List.intercalate sep [v] = v := by
  simp [List.intercalate]

/-- Claim C7 (amended): an `=` in a header NAME is folded to `_` — a
folded key never contains `=` — while header values are joined
verbatim: the entry for a single-valued header carries the value
unchanged after the separator, even when the value contains `=`. -/
theorem headerEntry_eq_folding (k v : List Char) :
    '=' ∉ foldHeaderKey k ∧
    upperCaseAndUnderscore '=' = '_' ∧
    headerEnvEntry k [v] = "HTTP_".toList ++ (foldHeaderKey k ++ ('=' :: v)) := by
  refine ⟨?_, by decide, ?_⟩
  · intro hc
    rcases List.mem_map.mp hc with ⟨x, _, hx⟩
    exact fold_char_ne_eq x hx
  · unfold headerEnvEntry
    rw [intercalate_singleton]

/-! ### The flush-writer stream adapter (HTTP POST variant) -/

/-- An event on the response transport, for observing write/flush
order. -/
inductive WEvent where
  | written (p : List Nat)
  | flushed
deriving DecidableEq

/-- The `flushWriter` interface of `shaas.go`: a writer with a `Flush`
method, modelled state-passing over a transport state `σ`. -/
structure FlushWriterI (σ : Type) where
  write : σ → List Nat → Nat × Option (List Char) × σ
  flush : σ → σ

/-- `flushWriterWrapper.Write`: forward the write, call `Flush`, then
return the inner write's count and error. -/
def flushWriterWrapperWrite {σ : Type} (fw : FlushWriterI σ) (s : σ) (p : List Nat) :
    Nat × Option (List Char) × σ :=
  match fw.write s p with
  | (n, err, s1) => (n, err, fw.flush s1)

/-- A Go `http.ResponseWriter`: a writer whose dynamic type may or may
not implement `Flush()`. -/
structure GoResponseWriter (σ : Type) where
  write : σ → List Nat → Nat × Option (List Char) × σ
  flushMethod : Option (σ → σ)

/-- The unchecked type assertion `res.(flushWriter)` in `handlePost`:
it yields the flush-capable interface when the dynamic type has
`Flush()`, and panics — modelled as `none` — otherwise. -/
def resAsFlushWriter {σ : Type} (res : GoResponseWriter σ) : Option (FlushWriterI σ) :=
  match res.flushMethod with
  | some f => some { write := res.write, flush := f }
  | none => none

/-- An event-logging writer: a write appends a `written` event and
succeeds; a flush appends a `flushed` event. -/
def logWriter : FlushWriterI (List WEvent) :=
  { write := fun s p => (p.length, none, s ++ [WEvent.written p]),
    flush := fun s => s ++ [WEvent.flushed] }

/-- A response writer whose dynamic type lacks `Flush()`. -/
def noFlushResponse : GoResponseWriter (List WEvent) :=
  { write := fun s p => (p.length, none, s ++ [WEvent.written p]),
    flushMethod := none }

/-- Claim C8 fails on the code: `handlePost` performs the unchecked
type assertion `res.(flushWriter)`; on a response writer that cannot
flush it panics — modelled by `none` — rather than degrading to a
safe no-op flush. -/
theorem handlePost_noFlush_counterexample :
    resAsFlushWriter noFlushResponse = none := rfl

/-- Claim C8 (amended): for a flush-capable response writer every
successful write is immediately followed by a flush before the write
returns — the wrapper's final state is the flush of the post-write
state, and on the logging writer the trace ends `written p, flushed` —
while the POST path assumes flush support: the type assertion fails on
a writer without a `Flush` method instead of falling back to a
no-op. -/
theorem flushWriter_write_then_flush {σ : Type} (fw : FlushWriterI σ) (s : σ)
    (p : List Nat) (s0 : List WEvent) (q : List Nat) (res : GoResponseWriter σ) :
    (flushWriterWrapperWrite fw s p).2.2 = fw.flush (fw.write s p).2.2 ∧
    (flushWriterWrapperWrite fw s p).1 = (fw.write s p).1 ∧
    flushWriterWrapperWrite logWriter s0 q =
      (q.length, none, s0 ++ [WEvent.written q, WEvent.flushed]) ∧
    (res.flushMethod = none → resAsFlushWriter res = none) := by
  refine ⟨?_, ?_, ?_, ?_⟩
  · rcases hw : fw.write s p with ⟨n, err, s1⟩
    simp [flushWriterWrapperWrite, hw]
  · rcases hw : fw.write s p with ⟨n, err, s1⟩
    simp [flushWriterWrapperWrite, hw]
  · simp [flushWriterWrapperWrite, logWriter]
  · intro h
    simp [resAsFlushWriter, h]

/-- Witness for C8 (amended) on concrete data. -/
theorem flushWriter_write_then_flush_witness :
    flushWriterWrapperWrite logWriter [] [7] =
      (1, none, [WEvent.written [7], WEvent.flushed]) ∧
    resAsFlushWriter noFlushResponse = none := by
  constructor
  · have h := (flushWriter_write_then_flush logWriter [] [7] [] [7] noFlushResponse).2.2.1
    simpa using h
  · exact (flushWriter_write_then_flush logWriter [] [] [] [] noFlushResponse).2.2.2 rfl

/-! ### The basic-auth gate -/

/-- Startup auth configuration parsed from `BASIC_AUTH` in `init()`. -/
structure AuthConfig where
  requireBasicAuth : Bool
  authUser : List Char
  authPassword : List Char

/-- Result of a gated handler: either the JSON error response produced
by `handleError` (HTTP status plus `message` field), or the wrapped
handler's outcome. -/
inductive GateResult (α : Type) where
  | errorResp (status : Nat) (message : List Char)
  | handled (a : α)
deriving DecidableEq

/-- Go `authorize(handler)` from `shaas.go`: when basic auth is
required, reject a request with unreadable credentials, or with a
wrong user/password pair, via `handleError(..., 401, "Not
Authorized")`; otherwise invoke the handler. -/
def authorize {α : Type} (cfg : AuthConfig) (handler : Request → α) (req : Request) :
    GateResult α :=
  if cfg.requireBasicAuth then
    match req.basicAuth with
    | none => GateResult.errorResp 401 "Not Authorized".toList
    | some (u, p) =>
      if u ≠ cfg.authUser ∨ p ≠ cfg.authPassword then
        GateResult.errorResp 401 "Not Authorized".toList
      else
        GateResult.handled (handler req)
  else
    GateResult.handled (handler req)

/-- The two route registrations of `main()`: `/>/exit` to `handleExit`
and `/` to `handleAny`, each wrapped in `authorize`. -/
def serveMux {α : Type} (cfg : AuthConfig) (exitHandler anyHandler : Request → α)
    (req : Request) : GateResult α :=
  if req.urlPath = "/>/exit".toList then authorize cfg exitHandler req
  else authorize cfg anyHandler req

/-- Claim C9: with a credential pair configured, every endpoint — the
exit endpoint and the catch-all path handler alike — answers a request
lacking correct credentials with status 401 and message
`Not Authorized`, whatever the wrapped handlers are (so neither
handler's result is produced). -/
theorem authorize_rejects {α : Type} (cfg : AuthConfig)
    (exitHandler anyHandler : Request → α) (req : Request)
    (hreq : cfg.requireBasicAuth = true)
    (hbad : req.basicAuth = none ∨
      ∀ u p, req.basicAuth = some (u, p) →
        ¬(u = cfg.authUser ∧ p = cfg.authPassword)) :
    serveMux cfg exitHandler anyHandler req =
      GateResult.errorResp 401 "Not Authorized".toList := by
  have hauth : ∀ h : Request → α,
      authorize cfg h req = GateResult.errorResp 401 "Not Authorized".toList := by
    intro h
    rcases hb : req.basicAuth with _ | ⟨u, p⟩
    · simp [authorize, hreq, hb]
    · rcases hbad with hnone | hall
      · rw [hb] at hnone
        exact absurd hnone (by simp)
      · have h2 := hall u p hb
        have h3 : u ≠ cfg.authUser ∨ p ≠ cfg.authPassword := not_and_or.mp h2
        simp only [authorize, hreq, hb, if_true]
        rw [if_pos h3]
  unfold serveMux
  by_cases hp : req.urlPath = "/>/exit".toList
  · rw [if_pos hp]
    exact hauth exitHandler
  · rw [if_neg hp]
    exact hauth anyHandler

/-- An auth configuration requiring `u:pw`. -/
def cfgAuth : AuthConfig :=
  { requireBasicAuth := true, authUser := "u".toList, authPassword := "pw".toList }

/-- A credentialless request to the exit endpoint. -/
def reqNoCreds : Request :=
  { host := [], method := "GET".toList, rawQuery := "code=7".toList,
    requestURI := "/>/exit?code=7".toList, urlPath := "/>/exit".toList,
    remoteAddr := [], tls := false, headers := [], contentLength := 0,
    basicAuth := none }

/-- Witness for C9: the exit endpoint with no credentials yields the
401 `Not Authorized` error, for an arbitrary pair of handlers. -/
theorem authorize_rejects_witness :
    serveMux cfgAuth (fun _ => (0 : Nat)) (fun _ => 1) reqNoCreds =
      GateResult.errorResp 401 "Not Authorized".toList :=
  authorize_rejects cfgAuth _ _ reqNoCreds rfl (Or.inl rfl)

/-! ### Claim C10: the duplicated Content-Type entry -/

/-- Claim C10: when the `Content-Type` header is present with values
`vs` and nonempty first value `v`, the built environment carries the
header's value twice: the folded `HTTP_CONTENT_TYPE` entry produced by
the generic header loop, and the dedicated `CONTENT_TYPE` entry
appended afterwards. -/
theorem cgiEnv_contentType_twice (port : List Char) (req : Request)
    (vs : List (List Char)) (v : List Char)
    (h1 : ("Content-Type".toList, vs) ∈ req.headers)
    (h2 : headerGet req.headers "Content-Type".toList = v)
    (h3 : v ≠ []) :
    ("HTTP_CONTENT_TYPE=".toList ++ List.intercalate ", ".toList vs)
      ∈ cgiEnv port req ∧
    ("CONTENT_TYPE=".toList ++ v) ∈ cgiEnv port req := by
  constructor
  · have hne : ¬foldHeaderKey "Content-Type".toList = "COOKIE".toList := by decide
    have hfold : foldHeaderKey "Content-Type".toList = "CONTENT_TYPE".toList := by decide
    have he : headerEnvEntry "Content-Type".toList vs =
        "HTTP_CONTENT_TYPE=".toList ++ List.intercalate ", ".toList vs := by
      unfold headerEnvEntry
      rw [if_neg hne, hfold]
      rfl
    rw [← he]
    simp only [cgiEnv, List.mem_append]
    exact Or.inr (Or.inr (Or.inl
      (List.mem_map.mpr ⟨("Content-Type".toList, vs), h1, rfl⟩)))
  · simp only [cgiEnv, List.mem_append]
    refine Or.inr (Or.inr (Or.inr (Or.inr ?_)))
    rw [h2, if_pos h3]
    exact List.mem_singleton.mpr rfl

/-- A request with `Content-Type: text/html`. -/
def reqCT : Request :=
  { host := [], method := "POST".toList, rawQuery := [],
    requestURI := "/".toList, urlPath := "/".toList, remoteAddr := [],
    tls := false, headers := [("Content-Type".toList, ["text/html".toList])],
    contentLength := 0, basicAuth := none }

/-- Witness for C10 at a concrete request. -/
theorem cgiEnv_contentType_twice_witness :
    "HTTP_CONTENT_TYPE=text/html".toList ∈ cgiEnv "5000".toList reqCT ∧
    "CONTENT_TYPE=text/html".toList ∈ cgiEnv "5000".toList reqCT := by
  have h := cgiEnv_contentType_twice "5000".toList reqCT ["text/html".toList]
    "text/html".toList (by decide) (by decide) (by decide)
  constructor
  · have h1 := h.1
    rw [intercalate_singleton] at h1
    have he : "HTTP_CONTENT_TYPE=".toList ++ "text/html".toList =
        "HTTP_CONTENT_TYPE=text/html".toList := by decide
    rw [he] at h1
    exact h1
  · have h2 := h.2
    have he : "CONTENT_TYPE=".toList ++ "text/html".toList =
        "CONTENT_TYPE=text/html".toList := by decide
    rw [he] at h2
    exact h2

end Shaas
